import Mathlib

/-!
Verification of the ipc-toolkit core: the conservative CCD controller
(`src/ccd/ccd.cpp`), the parallel TOI reducer, the barrier-potential
assembly engine and the self-intersection detector (`src/ipc.cpp`), and
the line-line distance formula (`src/distance/line_line.hpp`).

Doubles are modelled as rationals (exact arithmetic; the spec only claims
values up to floating-point reordering error).  The external CCD
root-finder, the broad phase, and the per-primitive distance/derivative
formulas are collaborators outside this core: they appear as function
parameters (oracles) or as values carried by each constraint.
The `+infinity` sentinel of `compute_minimum_distance` is modelled with
`WithTop`.  Stateful C++ (the in-out `toi` reference, the mutex-guarded
`earliest_toi`) is modelled by explicit value passing: the mutex variant
is sequentialized as a left fold, which is the deterministic
interleaving of the lock-ordered updates.
-/

/-- `SMALL_TOI` threshold from `ccd_strategy` (`ccd.cpp` line 28). -/
def SMALL_TOI : ℚ := 1 / 1000000

/-- Embedding of `ccd_strategy` (`ccd.cpp` lines 21-51).  The oracle `ccd`
takes `(min_distance, no_zero_toi, toi)` where `toi` is the current value
of the by-reference `toi` variable, and returns `(is_impacting, toi)`
with the value the call leaves in that variable.  The inner
`bool is_impacting` on line 42 of the C++ shadows the outer one, so the
returned boolean in the small-TOI branch is the outer (first-query)
result; the embedding reproduces this. -/
def ccd_strategy (ccd : ℚ → Bool → ℚ → Bool × ℚ)
    (initial_distance conservative_rescaling toi : ℚ) : Bool × ℚ :=
  if initial_distance = 0 then
    (true, 0)
  else
    let min_distance := (1 - conservative_rescaling) * initial_distance
    let first := ccd min_distance false toi
    if first.1 = true ∧ first.2 < SMALL_TOI then
      let second := ccd 0 true first.2
      if second.1 = true then (first.1, second.2 * conservative_rescaling)
      else (first.1, second.2)
    else
      first

/-- Embedding of the narrow-phase `compute_collision_free_stepsize`
(`ipc.cpp` lines 266-322).  `ccd c tmax` is `candidates[i].ccd(V0, V1, E,
F, toi, tmax, tolerance, max_iterations)`: `some toi` when the candidate
reports a collision in `[0, tmax]`, `none` otherwise.  The mutex-guarded
shared `earliest_toi` is sequentialized as the fold accumulator; each
candidate is queried with `tmax` equal to the current best bound, and the
bound is lowered when a smaller TOI is reported (`toi < earliest_toi`).
`stepsize_step` is the loop body (`ipc.cpp` lines 297-311). -/
def stepsize_step {α : Type} (ccd : α → ℚ → Option ℚ)
    (earliest_toi : ℚ) (c : α) : ℚ :=
  match ccd c earliest_toi with
  | some toi => if toi < earliest_toi then toi else earliest_toi
  | none => earliest_toi

def compute_collision_free_stepsize {α : Type} (ccd : α → ℚ → Option ℚ)
    (candidates : List α) : ℚ :=
  if candidates.isEmpty then 1
  else candidates.foldl (stepsize_step ccd) 1

/-- Oracle model for a per-candidate CCD query (the external root-finder,
spec section 6): the candidate has an earliest root `root` (or none), and a
query over `[0, tmax]` reports that root exactly when it lies in the
interval. -/
def earliest_root_oracle (root : Option ℚ) (tmax : ℚ) : Option ℚ :=
  match root with
  | some s => if s ≤ tmax then some s else none
  | none => none

/-- A candidate's individually computed TOI: its CCD query over the full
step interval `[0, 1]`, with `1` (full step safe) when no impact is
reported. -/
def candidate_toi {α : Type} (ccd : α → ℚ → Option ℚ) (c : α) : ℚ :=
  match ccd c 1 with
  | some t => t
  | none => 1

/-- A concrete two-candidate scenario used to instantiate oracle
hypotheses: candidate `0` has an earliest root at `1/2`, candidate `1`
never collides. -/
def toy_root : ℕ → Option ℚ :=
  fun n => if n = 0 then some (1 / 2) else none

/-- The CCD query function induced by `toy_root`. -/
def toy_ccd : ℕ → ℚ → Option ℚ :=
  fun n t => earliest_root_oracle (toy_root n) t

/-- A collision constraint as the assemblers of `ipc.cpp` see it, for one
fixed query `(mesh, V, E, F, dhat)`.  The per-primitive barrier formulas
(`compute_potential`, `compute_potential_gradient`,
`compute_potential_hessian`, `compute_distance`) and the accessor
`vertex_indices(E, F)` are external collaborators (spec sections 1 and 6),
so each constraint carries the values those calls return for this query:
`compute_potential_hessian` still takes the `project_hessian_to_psd`
flag, and local vectors/matrices are indexed over `ℕ` (entries beyond the
local size are never read by the scatters).  `weight` and
`weight_gradient` are the constraint's stored fields; `weight_gradient`
has the size of the global system (`assert` on `ipc.cpp` line 155),
enforced here by its type.  `N` is `V.size() = num_vertices * dim`. -/
structure CollisionConstraint (N : ℕ) where
  compute_potential : ℚ
  compute_potential_gradient : ℕ → ℚ
  compute_potential_hessian : Bool → ℕ → ℕ → ℚ
  vertex_indices : List ℕ
  weight : ℚ
  weight_gradient : Fin N → ℚ
  compute_distance : ℚ

/-- Modelled from the spec: `local_gradient_to_global_gradient`
(`ipc/utils/local_to_global.hpp`, whose source is not under `src/`;
spec section 4.3: the scatter "maps each local block of size (dimension)
to its global offset (`vertex_index * dimension`)" and "values add (never
overwrite) into the destination", in the order of the constraint's own
`vertex_indices`).  `scatter_gradient dim vis lg i` is the total local
contribution landing on global index `i`. -/
def scatter_gradient (dim : ℕ) (vis : List ℕ) (lg : ℕ → ℚ) (i : ℕ) : ℚ :=
  ((List.range vis.length).map (fun j =>
    ((List.range dim).map (fun k =>
      if vis.getD j 0 * dim + k = i then lg (j * dim + k) else 0)).sum)).sum

/-- Modelled from the spec: the gradient scatter adds the local
contributions into the running global accumulator. -/
def local_gradient_to_global_gradient (dim : ℕ) (lg : ℕ → ℚ) (vis : List ℕ)
    (g : ℕ → ℚ) : ℕ → ℚ :=
  fun i => g i + scatter_gradient dim vis lg i

/-- Modelled from the spec: `local_hessian_to_global_triplets` followed by
`setFromTriplets`/sparse addition (`ipc/utils/local_to_global.hpp`, not
under `src/`).  Each local block `(i*dim+a, j*dim+b)` is scattered to the
global entry `(vis[i]*dim+a, vis[j]*dim+b)`; duplicate triplets add. -/
def scatter_hessian (dim : ℕ) (vis : List ℕ) (lh : ℕ → ℕ → ℚ)
    (r c : ℕ) : ℚ :=
  ((List.range vis.length).map (fun i =>
    ((List.range vis.length).map (fun j =>
      ((List.range dim).map (fun a =>
        ((List.range dim).map (fun b =>
          if vis.getD i 0 * dim + a = r ∧ vis.getD j 0 * dim + b = c
          then lh (i * dim + a) (j * dim + b) else 0)).sum)).sum)).sum)).sum

/-- Embedding of `compute_barrier_potential` (`ipc.cpp` lines 26-59):
empty-set shortcut, then the thread-partitioned sum of each constraint's
(already weighted, quadrature-scaled) local barrier contribution,
sequentialized as one list sum. -/
def compute_barrier_potential {N : ℕ}
    (constraint_set : List (CollisionConstraint N)) : ℚ :=
  if constraint_set.isEmpty then 0
  else (constraint_set.map (fun c => c.compute_potential)).sum

/-- The thread-local accumulate-then-merge computation of the barrier
potential (`ipc.cpp` lines 41-57): `thread_ranges` is the partition of
the constraint set into the contiguous index ranges handed to workers;
each range is summed into its thread-local accumulator and the locals are
merged by a final sum. -/
def compute_barrier_potential_parallel {N : ℕ}
    (thread_ranges : List (List (CollisionConstraint N))) : ℚ :=
  (thread_ranges.map (fun tr => (tr.map (fun c => c.compute_potential)).sum)).sum

/-- Embedding of `compute_barrier_potential_gradient` (`ipc.cpp` lines
61-97): empty-set shortcut returning the zero vector of size `V.size()`,
else each constraint's local gradient is scattered and accumulated. -/
def compute_barrier_potential_gradient {N : ℕ} (dim : ℕ)
    (constraint_set : List (CollisionConstraint N)) : Fin N → ℚ :=
  if constraint_set.isEmpty then fun _ => 0
  else fun i =>
    (constraint_set.foldl
      (fun g c =>
        local_gradient_to_global_gradient dim c.compute_potential_gradient
          c.vertex_indices g)
      (fun _ => 0)) i.val

/-- Embedding of `compute_barrier_potential_hessian` (`ipc.cpp` lines
99-142): empty-set shortcut returning the zero matrix of extent
`V.size() × V.size()`, else the sum over constraints of the scattered
local Hessians (computed with the `project_hessian_to_psd` flag). -/
def compute_barrier_potential_hessian {N : ℕ} (dim : ℕ)
    (constraint_set : List (CollisionConstraint N))
    (project_hessian_to_psd : Bool) : Fin N → Fin N → ℚ :=
  if constraint_set.isEmpty then fun _ _ => 0
  else fun r c =>
    (constraint_set.map (fun cst =>
      scatter_hessian dim cst.vertex_indices
        (cst.compute_potential_hessian project_hessian_to_psd)
        r.val c.val)).sum

/-- The outer-product correction added per constraint by
`compute_barrier_shape_derivative` (`ipc.cpp` lines 157-170): the
constraint's local gradient divided by its weight, scattered to global
indices, times the transpose of its precomputed `weight_gradient`. -/
def shape_derivative_term {N : ℕ} (dim : ℕ) (c : CollisionConstraint N)
    (r cc : Fin N) : ℚ :=
  scatter_gradient dim c.vertex_indices
    (fun i => c.compute_potential_gradient i / c.weight) r.val
    * c.weight_gradient cc

/-- One iteration of the shape-derivative loop (`ipc.cpp` lines 153-171).
The `assert(constraint.weight != 0)` on line 159 is modelled as a
fail-fast: a zero weight aborts the computation with `none` instead of
silently dividing by zero. -/
def shape_derivative_step {N : ℕ} (dim : ℕ)
    (acc : Option (Fin N → Fin N → ℚ)) (c : CollisionConstraint N) :
    Option (Fin N → Fin N → ℚ) :=
  match acc with
  | none => none
  | some M =>
    if c.weight = 0 then none
    else some (fun r cc => M r cc + shape_derivative_term dim c r cc)

/-- Embedding of `compute_barrier_shape_derivative` (`ipc.cpp` lines
144-174): start from the non-PSD-projected Hessian assembly, then add one
outer-product correction per constraint, failing fast on a zero weight. -/
def compute_barrier_shape_derivative {N : ℕ} (dim : ℕ)
    (constraint_set : List (CollisionConstraint N)) :
    Option (Fin N → Fin N → ℚ) :=
  constraint_set.foldl (shape_derivative_step dim)
    (some (compute_barrier_potential_hessian dim constraint_set false))

/-- A concrete constraint on a 2-DOF system (`N = 2`, `dim = 1`) with a
nonzero weight, used to instantiate hypotheses. -/
def toy_constraint : CollisionConstraint 2 where
  compute_potential := 3
  compute_potential_gradient := fun _ => 2
  compute_potential_hessian := fun _ _ _ => 1
  vertex_indices := [0, 1]
  weight := 2
  weight_gradient := fun _ => 5
  compute_distance := 9

/-- A concrete constraint identical to `toy_constraint` but with weight
`0`, violating the shape-derivative precondition. -/
def toy_constraint_zero_weight : CollisionConstraint 2 where
  compute_potential := 3
  compute_potential_gradient := fun _ => 2
  compute_potential_hessian := fun _ _ _ => 1
  vertex_indices := [0, 1]
  weight := 0
  weight_gradient := fun _ => 5
  compute_distance := 9

/-- One iteration of the `compute_minimum_distance` loop (`ipc.cpp` lines
350-356): the running minimum is replaced when the constraint's computed
distance is strictly smaller. -/
def min_distance_step {N : ℕ} (m : WithTop ℚ) (c : CollisionConstraint N) :
    WithTop ℚ :=
  if (c.compute_distance : WithTop ℚ) < m then (c.compute_distance : WithTop ℚ)
  else m

/-- Embedding of `compute_minimum_distance` (`ipc.cpp` lines 327-364):
returns `+infinity` (`⊤`) on the empty constraint set, else the running
minimum (started at `+infinity`) of the constraints' computed distances.
The source notes the per-constraint `compute_distance` value is actually
a squared distance. -/
def compute_minimum_distance {N : ℕ}
    (constraint_set : List (CollisionConstraint N)) : WithTop ℚ :=
  if constraint_set.isEmpty then ⊤
  else constraint_set.foldl min_distance_step ⊤

/-- An edge-edge broad-phase candidate (indices into the edge array). -/
structure EdgeEdgeCandidate where
  edge0_index : ℕ
  edge1_index : ℕ

/-- An edge-face broad-phase candidate (indices into the edge and face
arrays). -/
structure EdgeFaceCandidate where
  edge_index : ℕ
  face_index : ℕ

/-- Embedding of `has_intersections` (`ipc.cpp` lines 368-423).  The
broad phase (`BroadPhase::make_broad_phase`/`build`/`detect_*`) and the
exact narrow-phase predicates (`igl::predicates::segment_segment_intersect`
and `is_edge_intersecting_triangle`, both reading the fixed `V`, `E`, `F`)
are external collaborators, passed as functions; `diag` is
`world_bbox_diagonal_length(V)`.  The candidate loops with their early
`return true` are `List.any`. -/
def has_intersections (dim : ℕ) (diag : ℚ)
    (detect_edge_edge_candidates : ℚ → List EdgeEdgeCandidate)
    (detect_edge_face_candidates : ℚ → List EdgeFaceCandidate)
    (segment_segment_intersect : EdgeEdgeCandidate → Bool)
    (is_edge_intersecting_triangle : EdgeFaceCandidate → Bool) : Bool :=
  let conservative_inflation_radius := 1 / 100 * diag
  if dim = 2 then
    (detect_edge_edge_candidates conservative_inflation_radius).any
      segment_segment_intersect
  else
    (detect_edge_face_candidates conservative_inflation_radius).any
      is_edge_intersecting_triangle

/-- A concrete edge-edge candidate. -/
def toy_ee_candidate : EdgeEdgeCandidate where
  edge0_index := 0
  edge1_index := 1

/-- 3D points/vectors as coordinate functions, for
`line_line.hpp`. -/
abbrev Vec3 : Type := Fin 3 → ℚ

/-- Coordinatewise difference (Eigen's vector subtraction). -/
def vsub (u v : Vec3) : Vec3 := fun i => u i - v i

/-- Eigen's `cross` for 3-vectors. -/
def cross (u v : Vec3) : Vec3 := fun i =>
  if i = 0 then u 1 * v 2 - u 2 * v 1
  else if i = 1 then u 2 * v 0 - u 0 * v 2
  else u 0 * v 1 - u 1 * v 0

/-- Eigen's `dot` for 3-vectors. -/
def dot (u v : Vec3) : ℚ := u 0 * v 0 + u 1 * v 1 + u 2 * v 2

/-- Eigen's `squaredNorm`. -/
def squaredNorm (u : Vec3) : ℚ := dot u u

/-- Embedding of `line_line_distance` (`line_line.hpp` lines 18-27).
The C++ division is unguarded; here `ℚ` division totalizes `x / 0 = 0`
(the C++ double division would produce `inf`/`NaN` instead), so theorems
about the value only hold under the nonzero-denominator precondition. -/
def line_line_distance (ea0 ea1 eb0 eb1 : Vec3) : ℚ :=
  let normal := cross (vsub ea1 ea0) (vsub eb1 eb0)
  let line_to_line := dot (vsub eb0 ea0) normal
  line_to_line * line_to_line / squaredNorm normal

/-- Two direction vectors are parallel when one is a scalar multiple of
the other. -/
def ParallelVec (u v : Vec3) : Prop :=
  ∃ k : ℚ, (∀ i, v i = k * u i) ∨ (∀ i, u i = k * v i)

/-- The origin `(0,0,0)`. -/
def p000 : Vec3 := fun _ => 0

/-- The point `(1,0,0)`. -/
def p100 : Vec3 := fun i => if i = 0 then 1 else 0

/-- The point `(0,1,0)`. -/
def p010 : Vec3 := fun i => if i = 1 then 1 else 0

/-- The point `(0,0,1)`. -/
def p001 : Vec3 := fun i => if i = 2 then 1 else 0

/-- The point `(1,1,0)`. -/
def p110 : Vec3 := fun i => if i = 2 then 0 else 1

/-- The point `(0,1,1)`. -/
def p011 : Vec3 := fun i => if i = 0 then 0 else 1

/-- **C3**: with initial distance exactly zero, `ccd_strategy` returns
`(true, 0)` immediately, for every oracle — the result does not depend on
`ccd`, i.e. the oracle is never consulted.  This is the early return of
`ccd.cpp` lines 30-34, guarded by a warning log, not an error path. -/
theorem ccd_strategy_zero_initial_distance
    (ccd : ℚ → Bool → ℚ → Bool × ℚ) (r toi d : ℚ) (hd : d = 0) :
    ccd_strategy ccd d r toi = (true, 0) := by
  simp [ccd_strategy, hd]

/-- Witness for `ccd_strategy_zero_initial_distance` at a concrete
oracle and inputs. -/
theorem ccd_strategy_zero_initial_distance_witness :
    ccd_strategy (fun _ _ t => (false, t)) 0 (1 / 2) (3 / 4) = (true, 0) :=
  ccd_strategy_zero_initial_distance (fun _ _ t => (false, t)) (1 / 2) (3 / 4) 0 rfl

/-- **C1**: when the initial distance is positive and the first oracle
query (at margin `(1 - r) * d`, `no_zero_toi = false`) reports an impact
with a TOI below `SMALL_TOI = 1e-6`, `ccd_strategy` re-queries the oracle
with `min_distance = 0` and `no_zero_toi = true`, rescales the re-query's
TOI by the conservative rescaling factor `r` when that re-query reports an
impact, and returns `true` (an impact was found) together with that
(possibly rescaled) TOI. -/
theorem ccd_strategy_small_toi_requery
    (ccd : ℚ → Bool → ℚ → Bool × ℚ) (d r toi : ℚ)
    (hd : 0 < d)
    (h1 : (ccd ((1 - r) * d) false toi).1 = true)
    (h2 : (ccd ((1 - r) * d) false toi).2 < SMALL_TOI) :
    ccd_strategy ccd d r toi =
      (true,
        if (ccd 0 true ((ccd ((1 - r) * d) false toi).2)).1 = true
        then (ccd 0 true ((ccd ((1 - r) * d) false toi).2)).2 * r
        else (ccd 0 true ((ccd ((1 - r) * d) false toi).2)).2) := by
  have hd0 : d ≠ 0 := ne_of_gt hd
  simp only [ccd_strategy, hd0, if_false, if_neg hd0]
  rw [if_pos ⟨h1, h2⟩]
  by_cases hsec : (ccd 0 true ((ccd ((1 - r) * d) false toi).2)).1 = true
  · rw [if_pos hsec, if_pos hsec, h1]
  · rw [if_neg hsec, if_neg hsec, h1]

/-- Witness for `ccd_strategy_small_toi_requery`: a concrete oracle whose
first query reports an impact at TOI `1/2000000 < SMALL_TOI` and whose
re-query reports TOI `1/1000`, rescaled by `r = 4/5`. -/
theorem ccd_strategy_small_toi_requery_witness :
    ccd_strategy
      (fun _ nzt _ => if nzt then (true, 1 / 1000) else (true, 1 / 2000000))
      1 (4 / 5) 0 =
      (true,
        if ((fun (_ : ℚ) (nzt : Bool) (_ : ℚ) =>
              if nzt then (true, (1 : ℚ) / 1000) else (true, 1 / 2000000)) 0 true
            (((fun (_ : ℚ) (nzt : Bool) (_ : ℚ) =>
              if nzt then (true, (1 : ℚ) / 1000) else (true, 1 / 2000000))
                ((1 - 4 / 5) * 1) false 0).2)).1 = true
        then ((fun (_ : ℚ) (nzt : Bool) (_ : ℚ) =>
              if nzt then (true, (1 : ℚ) / 1000) else (true, 1 / 2000000)) 0 true
            (((fun (_ : ℚ) (nzt : Bool) (_ : ℚ) =>
              if nzt then (true, (1 : ℚ) / 1000) else (true, 1 / 2000000))
                ((1 - 4 / 5) * 1) false 0).2)).2 * (4 / 5)
        else ((fun (_ : ℚ) (nzt : Bool) (_ : ℚ) =>
              if nzt then (true, (1 : ℚ) / 1000) else (true, 1 / 2000000)) 0 true
            (((fun (_ : ℚ) (nzt : Bool) (_ : ℚ) =>
              if nzt then (true, (1 : ℚ) / 1000) else (true, 1 / 2000000))
                ((1 - 4 / 5) * 1) false 0).2)).2) :=
  ccd_strategy_small_toi_requery
    (fun _ nzt _ => if nzt then (true, 1 / 1000) else (true, 1 / 2000000))
    1 (4 / 5) 0 (by norm_num) (by norm_num) (by norm_num [SMALL_TOI])

/-- One reducer step equals `min` of the current bound and the candidate's
individually computed TOI, when the per-candidate query is an
earliest-root oracle and the current bound is at most `1`. -/
theorem stepsize_step_min {α : Type} (ccd : α → ℚ → Option ℚ)
    (τ : α → Option ℚ) (h : ∀ c t, ccd c t = earliest_root_oracle (τ c) t)
    (c : α) (a : ℚ) (ha : a ≤ 1) :
    stepsize_step ccd a c = min a (candidate_toi ccd c) := by
  have hca := h c a
  have hc1 := h c 1
  cases hτ : τ c with
  | none =>
    rw [hτ] at hca hc1
    simp only [earliest_root_oracle] at hca hc1
    simp [stepsize_step, candidate_toi, hca, hc1, min_eq_left ha]
  | some s =>
    rw [hτ] at hca hc1
    simp only [earliest_root_oracle] at hca hc1
    by_cases hsa : s ≤ a
    · rw [if_pos hsa] at hca
      rw [if_pos (le_trans hsa ha)] at hc1
      simp only [stepsize_step, candidate_toi, hca, hc1]
      rw [min_def]
      split_ifs <;> linarith
    · rw [if_neg hsa] at hca
      by_cases hs1 : s ≤ 1
      · rw [if_pos hs1] at hc1
        simp only [stepsize_step, candidate_toi, hca, hc1]
        rw [min_eq_left (le_of_lt (not_le.mp hsa))]
      · rw [if_neg hs1] at hc1
        simp only [stepsize_step, candidate_toi, hca, hc1]
        rw [min_eq_left ha]

/-- The tmax-threaded fold of the TOI reducer computes the same value as
folding `min` over the individually computed TOIs, from any start bound
at most `1`: shrinking `tmax` to the current best bound only skips roots
that cannot lower the minimum. -/
theorem stepsize_fold_min {α : Type} (ccd : α → ℚ → Option ℚ)
    (τ : α → Option ℚ) (h : ∀ c t, ccd c t = earliest_root_oracle (τ c) t) :
    ∀ (cs : List α) (a : ℚ), a ≤ 1 →
      cs.foldl (stepsize_step ccd) a
        = (cs.map (candidate_toi ccd)).foldl min a := by
  intro cs
  induction cs with
  | nil => intro a _; rfl
  | cons c cs ih =>
    intro a ha
    rw [List.foldl_cons, List.map_cons, List.foldl_cons,
      stepsize_step_min ccd τ h c a ha]
    exact ih _ (le_trans (min_le_left _ _) ha)

/-- **C2**: when every candidate's CCD query behaves as an earliest-root
oracle, `compute_collision_free_stepsize` returns the minimum (folded
from `1`) over all candidates' individually computed TOIs, each of which
is at most `1`, and returns exactly `1` on the empty candidate set. -/
theorem compute_collision_free_stepsize_min_over_candidates {α : Type}
    (ccd : α → ℚ → Option ℚ) (τ : α → Option ℚ)
    (h : ∀ c t, ccd c t = earliest_root_oracle (τ c) t)
    (candidates : List α) :
    compute_collision_free_stepsize ccd candidates
        = (candidates.map (candidate_toi ccd)).foldl min 1
      ∧ (∀ c ∈ candidates, candidate_toi ccd c ≤ 1)
      ∧ (candidates = [] → compute_collision_free_stepsize ccd candidates = 1) := by
  refine ⟨?_, ?_, ?_⟩
  · cases candidates with
    | nil => rfl
    | cons c cs =>
      unfold compute_collision_free_stepsize
      rw [if_neg (by simp)]
      exact stepsize_fold_min ccd τ h (c :: cs) 1 le_rfl
  · intro c _
    have hc1 := h c 1
    cases hτ : τ c with
    | none =>
      rw [hτ] at hc1
      simp only [earliest_root_oracle] at hc1
      simp [candidate_toi, hc1]
    | some s =>
      rw [hτ] at hc1
      simp only [earliest_root_oracle] at hc1
      by_cases hs1 : s ≤ 1
      · rw [if_pos hs1] at hc1
        simp [candidate_toi, hc1, hs1]
      · rw [if_neg hs1] at hc1
        simp [candidate_toi, hc1]
  · intro hcs
    rw [hcs]
    rfl

/-- Witness for `compute_collision_free_stepsize_min_over_candidates` on
the concrete two-candidate oracle `toy_ccd`. -/
theorem compute_collision_free_stepsize_min_over_candidates_witness :
    compute_collision_free_stepsize toy_ccd [0, 1]
        = (([0, 1].map (candidate_toi toy_ccd)).foldl min 1)
      ∧ (∀ c ∈ [0, 1], candidate_toi toy_ccd c ≤ 1)
      ∧ (([0, 1] : List ℕ) = []
          → compute_collision_free_stepsize toy_ccd [0, 1] = 1) :=
  compute_collision_free_stepsize_min_over_candidates toy_ccd toy_root
    (fun _ _ => rfl) [0, 1]

/-- The reducer fold stays within `[0, a]` from any nonnegative start
bound `a`, when the per-candidate query only reports nonnegative TOIs. -/
theorem stepsize_fold_bounds {α : Type} (ccd : α → ℚ → Option ℚ)
    (h : ∀ c t toi, ccd c t = some toi → 0 ≤ toi) :
    ∀ (cs : List α) (a : ℚ), 0 ≤ a →
      0 ≤ cs.foldl (stepsize_step ccd) a
        ∧ cs.foldl (stepsize_step ccd) a ≤ a := by
  intro cs
  induction cs with
  | nil => intro a ha; exact ⟨ha, le_rfl⟩
  | cons c cs ih =>
    intro a ha
    have hstep : 0 ≤ stepsize_step ccd a c ∧ stepsize_step ccd a c ≤ a := by
      cases hccd : ccd c a with
      | none => exact ⟨by simp [stepsize_step, hccd, ha], by simp [stepsize_step, hccd]⟩
      | some toi =>
        by_cases hlt : toi < a
        · refine ⟨?_, ?_⟩
          · simpa [stepsize_step, hccd, hlt] using h c a toi hccd
          · simp [stepsize_step, hccd, hlt]
            exact le_of_lt hlt
        · exact ⟨by simp [stepsize_step, hccd, hlt, ha], by simp [stepsize_step, hccd, hlt]⟩
    rw [List.foldl_cons]
    obtain ⟨h0, hle⟩ := ih (stepsize_step ccd a c) hstep.1
    exact ⟨h0, le_trans hle hstep.2⟩

/-- **C4 (amended)**: when the per-candidate CCD query only reports
nonnegative TOIs, `compute_collision_free_stepsize` returns a value in
`[0, 1]`, and it returns exactly `1` on the empty candidate set.  (The
original claim's converse — TOI `= 1` only if the set is empty — is
false: see `compute_collision_free_stepsize_one_of_no_impacts`.) -/
theorem compute_collision_free_stepsize_range {α : Type}
    (ccd : α → ℚ → Option ℚ)
    (h : ∀ c t toi, ccd c t = some toi → 0 ≤ toi) (candidates : List α) :
    (0 ≤ compute_collision_free_stepsize ccd candidates
      ∧ compute_collision_free_stepsize ccd candidates ≤ 1)
      ∧ (candidates = [] → compute_collision_free_stepsize ccd candidates = 1) := by
  constructor
  · cases candidates with
    | nil => exact ⟨by norm_num [compute_collision_free_stepsize],
        by norm_num [compute_collision_free_stepsize]⟩
    | cons c cs =>
      unfold compute_collision_free_stepsize
      rw [if_neg (by simp)]
      exact stepsize_fold_bounds ccd h (c :: cs) 1 (by norm_num)
  · intro hcs
    rw [hcs]
    rfl

/-- Witness for `compute_collision_free_stepsize_range` on a
single-candidate set whose query never reports an impact. -/
theorem compute_collision_free_stepsize_range_witness :
    ((0 : ℚ) ≤ compute_collision_free_stepsize (fun (_ : Unit) _ => none) [()]
      ∧ compute_collision_free_stepsize (fun (_ : Unit) _ => none) [()] ≤ 1)
      ∧ (([()] : List Unit) = []
          → compute_collision_free_stepsize (fun (_ : Unit) _ => none) [()] = 1) :=
  compute_collision_free_stepsize_range (fun _ _ => none)
    (fun _ _ _ hct => Option.noConfusion hct) [()]

/-- **C4 counterexample**: a nonempty candidate set in which no candidate
reports an impact makes `compute_collision_free_stepsize` return exactly
`1`, so "returned TOI `= 1` iff the candidate set is empty" fails in the
only-if direction. -/
theorem compute_collision_free_stepsize_one_of_no_impacts :
    compute_collision_free_stepsize (fun (_ : Unit) _ => none) [()] = 1
      ∧ ([()] : List Unit) ≠ [] :=
  ⟨rfl, by simp⟩

/-- **C5**: an empty constraint set makes `compute_barrier_potential`
return `0`, `compute_barrier_potential_gradient` return the zero vector
of size `num_vertices * dim = N`, and `compute_barrier_potential_hessian`
(for either value of the PSD flag) return the zero matrix of the same
extent — in each case through the early-return branch, before any
parallel loop is launched. -/
theorem empty_constraint_set_zero {N : ℕ} (dim : ℕ) (flag : Bool) :
    compute_barrier_potential ([] : List (CollisionConstraint N)) = 0
      ∧ compute_barrier_potential_gradient dim
          ([] : List (CollisionConstraint N)) = (fun _ => 0)
      ∧ compute_barrier_potential_hessian dim
          ([] : List (CollisionConstraint N)) flag = (fun _ _ => 0) :=
  ⟨rfl, rfl, rfl⟩

/-- Folding the shape-derivative loop from an already failed accumulator
stays failed. -/
theorem shape_derivative_fold_none {N : ℕ} (dim : ℕ) :
    ∀ cs : List (CollisionConstraint N),
      cs.foldl (shape_derivative_step dim) none = none := by
  intro cs
  induction cs with
  | nil => rfl
  | cons c cs ih => rw [List.foldl_cons]; exact ih

/-- When every weight is nonzero, the shape-derivative loop adds the sum
of the per-constraint outer-product terms to its starting matrix. -/
theorem shape_derivative_fold_some {N : ℕ} (dim : ℕ) :
    ∀ (cs : List (CollisionConstraint N)),
      (∀ c ∈ cs, c.weight ≠ 0) →
      ∀ M : Fin N → Fin N → ℚ,
        cs.foldl (shape_derivative_step dim) (some M)
          = some (fun r cc =>
              M r cc + (cs.map (fun c => shape_derivative_term dim c r cc)).sum) := by
  intro cs
  induction cs with
  | nil =>
    intro _ M
    simp
  | cons c cs ih =>
    intro h M
    have hw : c.weight ≠ 0 := h c (List.mem_cons_self c cs)
    rw [List.foldl_cons]
    have hstep : shape_derivative_step dim (some M) c
        = some (fun r cc => M r cc + shape_derivative_term dim c r cc) := by
      simp [shape_derivative_step, hw]
    rw [hstep, ih (fun c' hc' => h c' (List.mem_cons_of_mem c hc'))]
    congr 1
    funext r cc
    simp [add_assoc]

/-- A zero weight anywhere in the constraint set makes the
shape-derivative loop fail, from any accumulator. -/
theorem shape_derivative_fold_zero_weight {N : ℕ} (dim : ℕ) :
    ∀ (cs : List (CollisionConstraint N)) (acc : Option (Fin N → Fin N → ℚ)),
      (∃ c ∈ cs, c.weight = 0) →
      cs.foldl (shape_derivative_step dim) acc = none := by
  intro cs
  induction cs with
  | nil =>
    intro acc h
    rcases h with ⟨c, hc, _⟩
    exact absurd hc (List.not_mem_nil c)
  | cons c cs ih =>
    intro acc h
    rw [List.foldl_cons]
    rcases h with ⟨c', hc', hw⟩
    rcases List.mem_cons.mp hc' with heq | hmem
    · subst heq
      have hstep : shape_derivative_step dim acc c' = none := by
        cases acc with
        | none => rfl
        | some M => simp [shape_derivative_step, hw]
      rw [hstep]
      exact shape_derivative_fold_none dim cs
    · exact ih _ ⟨c', hmem, hw⟩

/-- **C6**: when every constraint's weight is nonzero,
`compute_barrier_shape_derivative` equals the non-PSD-projected Hessian
assembly plus, summed over the constraints, the outer product of the
constraint's scattered gradient divided by its weight with its
precomputed `weight_gradient`; and a zero weight makes the computation
fail fast (`none`), never a silently wrong answer. -/
theorem compute_barrier_shape_derivative_spec {N : ℕ} (dim : ℕ)
    (cs : List (CollisionConstraint N)) :
    ((∀ c ∈ cs, c.weight ≠ 0) →
      compute_barrier_shape_derivative dim cs
        = some (fun r cc =>
            compute_barrier_potential_hessian dim cs false r cc
              + (cs.map (fun c => shape_derivative_term dim c r cc)).sum))
      ∧ ((∃ c ∈ cs, c.weight = 0) →
          compute_barrier_shape_derivative dim cs = none) := by
  constructor
  · intro h
    unfold compute_barrier_shape_derivative
    exact shape_derivative_fold_some dim cs h _
  · intro h
    unfold compute_barrier_shape_derivative
    exact shape_derivative_fold_zero_weight dim cs _ h

/-- Witness for `compute_barrier_shape_derivative_spec`: the nonzero
branch on `[toy_constraint]` and the fail-fast branch on
`[toy_constraint_zero_weight]`. -/
theorem compute_barrier_shape_derivative_spec_witness :
    compute_barrier_shape_derivative 1 [toy_constraint]
        = some (fun r cc =>
            compute_barrier_potential_hessian 1 [toy_constraint] false r cc
              + ([toy_constraint].map
                  (fun c => shape_derivative_term 1 c r cc)).sum)
      ∧ compute_barrier_shape_derivative 1 [toy_constraint_zero_weight] = none :=
  ⟨(compute_barrier_shape_derivative_spec 1 [toy_constraint]).1
      (by
        intro c hc
        rw [List.mem_singleton] at hc
        subst hc
        norm_num [toy_constraint]),
    (compute_barrier_shape_derivative_spec 1 [toy_constraint_zero_weight]).2
      ⟨toy_constraint_zero_weight, List.mem_singleton_self _, rfl⟩⟩

/-- **C7**: for a non-empty constraint set, the thread-local
accumulate-then-merge barrier potential — per-range partial sums followed
by a merge sum, for any partition of the constraint set into contiguous
ranges — equals the sequential sum over all constraints of each
constraint's local barrier contribution (exact arithmetic). -/
theorem compute_barrier_potential_parallel_eq {N : ℕ}
    (thread_ranges : List (List (CollisionConstraint N)))
    (cs : List (CollisionConstraint N))
    (hjoin : thread_ranges.flatten = cs) (hne : cs ≠ []) :
    compute_barrier_potential_parallel thread_ranges
      = compute_barrier_potential cs := by
  subst hjoin
  unfold compute_barrier_potential compute_barrier_potential_parallel
  rw [if_neg (by simp [List.isEmpty_iff, hne])]
  rw [List.map_flatten, List.sum_flatten, List.map_map]
  rfl

/-- Witness for `compute_barrier_potential_parallel_eq` on the partition
`[[toy_constraint], []]` of the singleton constraint set. -/
theorem compute_barrier_potential_parallel_eq_witness :
    compute_barrier_potential_parallel [[toy_constraint], []]
      = compute_barrier_potential [toy_constraint] :=
  compute_barrier_potential_parallel_eq [[toy_constraint], []]
    [toy_constraint] rfl (by simp)

/-- One minimum-distance step equals `min` of the running minimum and the
constraint's computed distance. -/
theorem min_distance_step_min {N : ℕ} (m : WithTop ℚ)
    (c : CollisionConstraint N) :
    min_distance_step m c = min m (c.compute_distance : WithTop ℚ) := by
  unfold min_distance_step
  rcases lt_or_ge (c.compute_distance : WithTop ℚ) m with hlt | hge
  · rw [if_pos hlt, min_eq_right (le_of_lt hlt)]
  · rw [if_neg (not_lt.mpr hge), min_eq_left hge]

/-- The minimum-distance fold is a lower bound for its start value and
for every constraint's computed distance. -/
theorem min_distance_fold_le {N : ℕ} :
    ∀ (cs : List (CollisionConstraint N)) (a : WithTop ℚ),
      cs.foldl min_distance_step a ≤ a
        ∧ ∀ c ∈ cs,
            cs.foldl min_distance_step a ≤ (c.compute_distance : WithTop ℚ) := by
  intro cs
  induction cs with
  | nil =>
    intro a
    exact ⟨le_rfl, fun c hc => absurd hc (List.not_mem_nil c)⟩
  | cons c cs ih =>
    intro a
    rw [List.foldl_cons, min_distance_step_min]
    obtain ⟨h1, h2⟩ := ih (min a (c.compute_distance : WithTop ℚ))
    refine ⟨le_trans h1 (min_le_left _ _), ?_⟩
    intro c' hc'
    rcases List.mem_cons.mp hc' with heq | hmem
    · subst heq
      exact le_trans h1 (min_le_right _ _)
    · exact h2 c' hmem

/-- The minimum-distance fold returns its start value or one of the
constraints' computed distances. -/
theorem min_distance_fold_mem {N : ℕ} :
    ∀ (cs : List (CollisionConstraint N)) (a : WithTop ℚ),
      cs.foldl min_distance_step a = a
        ∨ ∃ c ∈ cs,
            cs.foldl min_distance_step a = (c.compute_distance : WithTop ℚ) := by
  intro cs
  induction cs with
  | nil => intro a; exact Or.inl rfl
  | cons c cs ih =>
    intro a
    rw [List.foldl_cons, min_distance_step_min]
    rcases ih (min a (c.compute_distance : WithTop ℚ)) with heq | ⟨c', hc', heq⟩
    · rw [heq]
      rcases min_cases a (c.compute_distance : WithTop ℚ) with ⟨hmin, _⟩ | ⟨hmin, _⟩
      · exact Or.inl hmin
      · exact Or.inr ⟨c, List.mem_cons_self c cs, hmin⟩
    · exact Or.inr ⟨c', List.mem_cons_of_mem c hc', heq⟩

/-- **C10**: `compute_minimum_distance` returns `+infinity` (`⊤`) on the
empty constraint set, and on a non-empty set it returns the minimum over
all constraints of the constraint's computed distance (a squared
distance, despite the function's name — `ipc.cpp` line 326): its value is
attained by some constraint and is a lower bound for all of them. -/
theorem compute_minimum_distance_min {N : ℕ}
    (cs : List (CollisionConstraint N)) :
    (cs = [] → compute_minimum_distance cs = ⊤)
      ∧ (cs ≠ [] →
          (∃ c ∈ cs,
              compute_minimum_distance cs = (c.compute_distance : WithTop ℚ))
            ∧ ∀ c ∈ cs,
                compute_minimum_distance cs ≤ (c.compute_distance : WithTop ℚ)) := by
  constructor
  · intro h
    subst h
    rfl
  · intro hne
    unfold compute_minimum_distance
    rw [if_neg (by simp [List.isEmpty_iff, hne])]
    constructor
    · rcases min_distance_fold_mem cs ⊤ with heq | hmem
      · exfalso
        obtain ⟨c, hc⟩ := List.exists_mem_of_ne_nil cs hne
        have hle := (min_distance_fold_le cs ⊤).2 c hc
        rw [heq] at hle
        exact WithTop.coe_ne_top (top_le_iff.mp hle)
      · exact hmem
    · exact (min_distance_fold_le cs ⊤).2

/-- Witness for `compute_minimum_distance_min` on the singleton
constraint set `[toy_constraint]`. -/
theorem compute_minimum_distance_min_witness :
    (∃ c ∈ [toy_constraint],
        compute_minimum_distance [toy_constraint]
          = (c.compute_distance : WithTop ℚ))
      ∧ ∀ c ∈ [toy_constraint],
          compute_minimum_distance [toy_constraint]
            ≤ (c.compute_distance : WithTop ℚ) :=
  (compute_minimum_distance_min [toy_constraint]).2 (by simp)

/-- **C8**: `has_intersections` enumerates edge-edge candidates in 2D and
edge-face candidates otherwise (3D), both obtained from the broad phase
at the inflation radius `1e-2 * world_bbox_diagonal_length(V)`, and
returns `true` exactly when some enumerated candidate passes its exact
intersection test — in particular `false` when no candidate pair exactly
intersects.  The early `return true` of the C++ loop is the
short-circuit of `List.any`: the result is fixed by the first confirmed
intersection. -/
theorem has_intersections_spec (dim : ℕ) (diag : ℚ)
    (detect_edge_edge_candidates : ℚ → List EdgeEdgeCandidate)
    (detect_edge_face_candidates : ℚ → List EdgeFaceCandidate)
    (segment_segment_intersect : EdgeEdgeCandidate → Bool)
    (is_edge_intersecting_triangle : EdgeFaceCandidate → Bool) :
    (dim = 2 →
      (has_intersections dim diag detect_edge_edge_candidates
          detect_edge_face_candidates segment_segment_intersect
          is_edge_intersecting_triangle = true
        ↔ ∃ c ∈ detect_edge_edge_candidates (1 / 100 * diag),
            segment_segment_intersect c = true))
      ∧ (dim ≠ 2 →
          (has_intersections dim diag detect_edge_edge_candidates
              detect_edge_face_candidates segment_segment_intersect
              is_edge_intersecting_triangle = true
            ↔ ∃ c ∈ detect_edge_face_candidates (1 / 100 * diag),
                is_edge_intersecting_triangle c = true)) := by
  constructor
  · intro h2
    unfold has_intersections
    rw [if_pos h2]
    exact List.any_eq_true
  · intro h2
    unfold has_intersections
    rw [if_neg h2]
    exact List.any_eq_true

/-- Witness for `has_intersections_spec`: the 2D branch on a
one-candidate broad phase whose exact test succeeds, and the 3D branch on
an empty candidate list. -/
theorem has_intersections_spec_witness :
    (has_intersections 2 1 (fun _ => [toy_ee_candidate]) (fun _ => [])
        (fun _ => true) (fun _ => true) = true
      ↔ ∃ c ∈ (fun (_ : ℚ) => [toy_ee_candidate]) (1 / 100 * 1),
          (fun (_ : EdgeEdgeCandidate) => true) c = true)
      ∧ (has_intersections 3 1 (fun _ => [toy_ee_candidate]) (fun _ => [])
          (fun _ => true) (fun _ => true) = true
        ↔ ∃ c ∈ (fun (_ : ℚ) => ([] : List EdgeFaceCandidate)) (1 / 100 * 1),
            (fun (_ : EdgeFaceCandidate) => true) c = true) :=
  ⟨(has_intersections_spec 2 1 (fun _ => [toy_ee_candidate]) (fun _ => [])
      (fun _ => true) (fun _ => true)).1 rfl,
    (has_intersections_spec 3 1 (fun _ => [toy_ee_candidate]) (fun _ => [])
      (fun _ => true) (fun _ => true)).2 (by decide)⟩

/-- The squared norm of a cross product, expanded in coordinates. -/
theorem squaredNorm_cross (u v : Vec3) :
    squaredNorm (cross u v)
      = (u 1 * v 2 - u 2 * v 1) * (u 1 * v 2 - u 2 * v 1)
        + (u 2 * v 0 - u 0 * v 2) * (u 2 * v 0 - u 0 * v 2)
        + (u 0 * v 1 - u 1 * v 0) * (u 0 * v 1 - u 1 * v 0) := rfl

/-- **C9**: `line_line_distance` is the quotient
`((eb0 - ea0) · n)^2 / ‖n‖^2` with `n` the cross product of the two edge
direction vectors; for parallel edges the denominator `‖n‖^2` is zero
(the C++ division is unguarded there), and whenever the denominator is
nonzero the result is the well-defined squared line-line distance, i.e.
it satisfies `result * ‖n‖^2 = ((eb0 - ea0) · n)^2`. -/
theorem line_line_distance_spec (ea0 ea1 eb0 eb1 : Vec3) :
    line_line_distance ea0 ea1 eb0 eb1
        = dot (vsub eb0 ea0) (cross (vsub ea1 ea0) (vsub eb1 eb0))
          * dot (vsub eb0 ea0) (cross (vsub ea1 ea0) (vsub eb1 eb0))
          / squaredNorm (cross (vsub ea1 ea0) (vsub eb1 eb0))
      ∧ (ParallelVec (vsub ea1 ea0) (vsub eb1 eb0) →
          squaredNorm (cross (vsub ea1 ea0) (vsub eb1 eb0)) = 0)
      ∧ (squaredNorm (cross (vsub ea1 ea0) (vsub eb1 eb0)) ≠ 0 →
          line_line_distance ea0 ea1 eb0 eb1
              * squaredNorm (cross (vsub ea1 ea0) (vsub eb1 eb0))
            = dot (vsub eb0 ea0) (cross (vsub ea1 ea0) (vsub eb1 eb0))
              * dot (vsub eb0 ea0) (cross (vsub ea1 ea0) (vsub eb1 eb0))) := by
  refine ⟨rfl, ?_, ?_⟩
  · rintro ⟨k, hk | hk⟩
    · have h0 := hk 0
      have h1 := hk 1
      have h2 := hk 2
      simp only [vsub] at h0 h1 h2
      rw [squaredNorm_cross]
      simp only [vsub]
      rw [h0, h1, h2]
      ring
    · have h0 := hk 0
      have h1 := hk 1
      have h2 := hk 2
      simp only [vsub] at h0 h1 h2
      rw [squaredNorm_cross]
      simp only [vsub]
      rw [h0, h1, h2]
      ring
  · intro hne
    unfold line_line_distance
    exact div_mul_cancel₀ _ hne

/-- Witness for `line_line_distance_spec`: parallel edges along the
x-axis have a zero denominator, and the skew pair x-axis / shifted y-axis
has a nonzero denominator with the division identity holding. -/
theorem line_line_distance_spec_witness :
    squaredNorm (cross (vsub p100 p000) (vsub p110 p010)) = 0
      ∧ line_line_distance p000 p100 p001 p011
            * squaredNorm (cross (vsub p100 p000) (vsub p011 p001))
          = dot (vsub p001 p000) (cross (vsub p100 p000) (vsub p011 p001))
            * dot (vsub p001 p000) (cross (vsub p100 p000) (vsub p011 p001)) :=
  ⟨(line_line_distance_spec p000 p100 p010 p110).2.1
      ⟨1, Or.inl (by
        intro i
        fin_cases i <;>
          norm_num [vsub, p110, p010, p100, p000, Fin.ext_iff])⟩,
    (line_line_distance_spec p000 p100 p001 p011).2.2
      (by norm_num [squaredNorm_cross, vsub, p100, p000, p011, p001,
        Fin.ext_iff])⟩
